import Mathlib

/-!
Verification of the `Gapbuffer` class (gapbuffer.h).

Two embeddings are used.

The flat model (`Gapbuffer`) represents the single backing allocation as a
`List Char` of physical slots; `bufferStart` is offset `0`, `bufferEnd` is
`data.length`, and `gapStart`/`gapEnd` are offsets into the list.  All
operations that stay inside one allocation (`at`, `to_str`, `push_back`,
`pop_back`, `erase`, `advance`, `retreat`, `find`, `empty`, `size`,
`gap_size`, `capacity`) are translated here.  `char`'s destructor is trivial,
so `std::destroy_at` leaves the stored byte unchanged and is modelled as a
no-op; value-construction (`std::uninitialized_value_construct_n`) writes
`'\0'`.

The pointer model (`PGapbuffer` over `Heap`) represents each allocation by an
id with its contents, and pointers as (allocation id, offset) pairs.  It is
used for the operations whose source behaviour crosses allocations:
`reserve` (which value-constructs over the old buffer and leaves `bufferEnd`
pointing into the old allocation), the growth path of `push_back`, and the
move constructor (which deallocates the very allocation it just transferred).
Out-of-bounds writes (heap overflows in the source) are modelled as dropped.
-/

/-- Value written by `std::uninitialized_value_construct_n` for `char`. -/
def nulChar : Char := Char.ofNat 0

/-- Stand-in for the indeterminate contents of freshly allocated
(uninitialized) slots; no theorem below depends on its value. -/
def indetChar : Char := Char.ofNat 63

/-- Flat model of one `Gapbuffer` object: the physical slots of its single
backing allocation together with the gap offsets.  `bufferStart = 0`,
`bufferEnd = data.length`. -/
structure Gapbuffer where
  data : List Char
  gapStart : Nat
  gapEnd : Nat
deriving DecidableEq, Repr

namespace Gapbuffer

/-- Source `Gapbuffer()`: allocate 32 value-constructed slots, gap spans everything. -/
def mkDefault : Gapbuffer := ⟨List.replicate 32 nulChar, 0, 32⟩

/-- Source `Gapbuffer(length)`: allocate `length` value-constructed slots. -/
def mkWithCapacity (n : Nat) : Gapbuffer := ⟨List.replicate n nulChar, 0, n⟩

/-- Source `Gapbuffer(std::string_view str)`: allocate `str.size() + 8` slots, move
the content to the front, gap of width 8 after it.  The 8 gap slots are
uninitialized in the source, hence passed in as `junk` (intended length 8). -/
def mkFromString (s junk : List Char) : Gapbuffer :=
  ⟨s ++ junk, s.length, s.length + junk.length⟩

/-- Source `capacity()`: `bufferEnd - bufferStart`. -/
def capacity (b : Gapbuffer) : Nat := b.data.length

/-- Source `gap_size()`: `gapEnd - gapStart`. -/
def gap_size (b : Gapbuffer) : Nat := b.gapEnd - b.gapStart

/-- Source `size()`: `bufferEnd - bufferStart - (gapEnd - gapStart)`. -/
def size (b : Gapbuffer) : Nat := b.data.length - (b.gapEnd - b.gapStart)

/-- Source `empty()`: `bufferStart == gapStart`. -/
def empty (b : Gapbuffer) : Bool := b.gapStart == 0

/-- Source `to_str()`: append the left segment `[bufferStart, gapStart)` and the
right segment `[gapEnd, bufferEnd)`. -/
def to_str (b : Gapbuffer) : List Char := b.data.take b.gapStart ++ b.data.drop b.gapEnd

/-- The layout invariant `bufferStart ≤ gapStart ≤ gapEnd ≤ bufferEnd`
(`0 ≤ gapStart` is automatic for offsets). -/
def WF (b : Gapbuffer) : Prop := b.gapStart ≤ b.gapEnd ∧ b.gapEnd ≤ b.data.length

instance (b : Gapbuffer) : Decidable (WF b) :=
  inferInstanceAs (Decidable (_ ∧ _))

/-- Source `at(loc)`: bounds check `loc >= size()` (throw, modelled as `none`),
then translate: before the gap the address is `bufferStart + loc`, after it
`gapEnd + (loc - (gapStart - bufferStart))`. -/
def at_ (b : Gapbuffer) (loc : Nat) : Option Char :=
  if loc ≥ b.size then none
  else if loc < b.gapStart then some (b.data.getD loc nulChar)
  else some (b.data.getD (b.gapEnd + (loc - b.gapStart)) nulChar)

/-- Source `push_back(value)`: write `value` at `gapStart`, increment `gapStart`;
if the gap is exhausted the source calls `reserve(capacity() * 2)`, which
reallocates — that path leaves the flat (single-allocation) model and is
handled by `PGapbuffer.push_back` in the pointer model, so it is `none` here. -/
def push_back (b : Gapbuffer) (value : Char) : Option Gapbuffer :=
  let data := b.data.set b.gapStart value
  let gs := b.gapStart + 1
  if gs = b.gapEnd then none
  else some ⟨data, gs, b.gapEnd⟩

/-- Source `pop_back()`: throw (modelled `none`, object unchanged) if
`gapStart == bufferStart`; otherwise return `*(gapStart - 1)` and decrement
`gapStart` (`std::destroy_at` on a `char` slot leaves the byte unchanged). -/
def pop_back (b : Gapbuffer) : Option Char × Gapbuffer :=
  if b.gapStart = 0 then (none, b)
  else (some (b.data.getD (b.gapStart - 1) nulChar), ⟨b.data, b.gapStart - 1, b.gapEnd⟩)

/-- Source `erase(count)`: `count` iterations of `ret.push_back(pop_back())`.  A
throw from `pop_back` propagates, discarding `ret` but keeping every state
change already performed; the pair returned is (collected string if it
completed, object state when the call ends). -/
def erase (b : Gapbuffer) : Nat → Option (List Char) × Gapbuffer
  | 0 => (some [], b)
  | n + 1 =>
    match b.pop_back with
    | (none, b') => (none, b')
    | (some c, b') =>
      match b'.erase n with
      | (none, b'') => (none, b'')
      | (some ret, b'') => (some (c :: ret), b'')

/-- Source `advance()`: if `gapEnd < bufferEnd`, capture `*gapEnd` (destroying a
`char` is a no-op); then unconditionally `gapEnd++`, write the captured
element (if any) to `*gapStart`, and `gapStart++`. -/
def advance (b : Gapbuffer) : Gapbuffer :=
  let c : Option Char :=
    if b.gapEnd < b.data.length then some (b.data.getD b.gapEnd nulChar) else none
  let ge := b.gapEnd + 1
  let data := match c with
    | some ch => b.data.set b.gapStart ch
    | none => b.data
  ⟨data, b.gapStart + 1, ge⟩

/-- Source `retreat()`: unconditionally `gapStart--`; if afterwards
`gapStart > bufferStart`, capture `*gapStart`; then `gapEnd--` and write the
captured element (if any) to `*gapEnd`.  (When `gapStart == bufferStart` the
source decrements the pointer below the allocation; offsets here are `Nat`,
so no theorem is stated at that input.) -/
def retreat (b : Gapbuffer) : Gapbuffer :=
  let gs := b.gapStart - 1
  let c : Option Char := if gs > 0 then some (b.data.getD gs nulChar) else none
  let ge := b.gapEnd - 1
  let data := match c with
    | some ch => b.data.set ge ch
    | none => b.data
  ⟨data, gs, ge⟩

/-- Modelled from the spec: the iterator bodies (`operator++` etc.) are empty
in the source; per the spec, iteration visits the physical addresses
`[bufferStart, gapStart) ++ [gapEnd, bufferEnd)` in order, so the traversal
of a whole buffer visits exactly the logical sequence `to_str()`.  `find`'s
own body is translated from the source, with the iterator loop over
`begin()..end()` replaced by this logical traversal and
`std::distance(begin(), it)` by the logical offset. -/
def findGo (c : Char) (count : Int) : List Char → Int → Int → Int
  | [], _, _ => -1
  | x :: xs, tracking, idx =>
    if x = c then
      let t := tracking + 1
      if t = count then idx else findGo c count xs t (idx + 1)
    else findGo c count xs tracking (idx + 1)

/-- Source `find(c, count)`: `count == 0` returns `0` immediately; otherwise scan
the logical sequence counting occurrences of `c`, returning the logical
index once `count` of them have been seen, `-1` if the scan ends first. -/
def find (b : Gapbuffer) (c : Char) (count : Int) : Int :=
  if count = 0 then 0 else findGo c count b.to_str 0 0

/-- Modelled from the spec: `operator++` (empty-bodied in the source) steps
the physical address by one and, if the post-step address lies inside
`[gapStart, gapEnd)`, jumps to the far boundary `gapEnd` (§9's
"comparing the post-step physical address against `[gapStart, gapEnd)`"). -/
def iterNext (b : Gapbuffer) (p : Nat) : Nat :=
  let q := p + 1
  if b.gapStart ≤ q ∧ q < b.gapEnd then b.gapEnd else q

/-- Modelled from the spec: `operator--` (empty-bodied in the source) steps
the physical address back by one and, if the post-step address lies inside
`[gapStart, gapEnd)`, jumps to the far boundary `gapStart - 1`. -/
def iterPrev (b : Gapbuffer) (p : Nat) : Nat :=
  let q := p - 1
  if b.gapStart ≤ q ∧ q < b.gapEnd then b.gapStart - 1 else q

end Gapbuffer

/-- Positions (0-based) of the occurrences of `c` in a list; specification
helper for `find`. -/
def occIndices (c : Char) : List Char → List Nat
  | [] => []
  | x :: xs =>
    if x = c then 0 :: (occIndices c xs).map (· + 1)
    else (occIndices c xs).map (· + 1)

/-- Pointer into a specific heap allocation: allocation id plus slot offset. -/
structure HPtr where
  alloc : Nat
  off : Nat
deriving DecidableEq, Repr

/-- Pointer addition `p + n` (stays inside the same allocation). -/
def HPtr.add (p : HPtr) (n : Nat) : HPtr := ⟨p.alloc, p.off + n⟩

/-- Pointer subtraction `p - n`. -/
def HPtr.sub (p : HPtr) (n : Nat) : HPtr := ⟨p.alloc, p.off - n⟩

/-- Pointer difference `p - q` as a slot count; the source only forms it on
pointers into the same allocation while a state is intact. -/
def HPtr.diff (p q : HPtr) : Nat := p.off - q.off

/-- The live allocations: id paired with contents. -/
abbrev Heap := List (Nat × List Char)

/-- Write one slot; a write outside any live allocation's bounds (a heap
overflow in the source) is dropped. -/
def heapWrite (h : Heap) (p : HPtr) (c : Char) : Heap :=
  h.map fun e => if e.1 = p.alloc then (e.1, e.2.set p.off c) else e

/-- Read one slot; reads outside live storage yield the indeterminate char. -/
def heapRead (h : Heap) (p : HPtr) : Char :=
  match List.lookup p.alloc h with
  | some l => l.getD p.off indetChar
  | none => indetChar

/-- Source `allocator.deallocate`: remove the allocation from the heap. -/
def heapDealloc (h : Heap) (id : Nat) : Heap :=
  h.filter fun e => decide (e.1 ≠ id)

/-- Source `std::uninitialized_value_construct_n(p, n)`: write `'\0'` to the `n`
slots from `p` on (for `char`, value-construction zeroes the byte). -/
def valueConstructN (h : Heap) (p : HPtr) : Nat → Heap
  | 0 => h
  | n + 1 => valueConstructN (heapWrite h p nulChar) (p.add 1) n

/-- Source `std::uninitialized_move_n(src, n, dst)` for `char`: copy `n` slots. -/
def moveN (h : Heap) (src : HPtr) (n : Nat) (dst : HPtr) : Heap :=
  match n with
  | 0 => h
  | n + 1 => moveN (heapWrite h dst (heapRead h src)) (src.add 1) n (dst.add 1)

/-- Pointer-level model of one `Gapbuffer` object: its four data members. -/
structure PGapbuffer where
  bufferStart : HPtr
  gapStart : HPtr
  gapEnd : HPtr
  bufferEnd : HPtr
deriving DecidableEq, Repr

namespace PGapbuffer

/-- Source `capacity()` at pointer level: `bufferEnd - bufferStart`. -/
def capacity (b : PGapbuffer) : Nat := b.bufferEnd.diff b.bufferStart

/-- Source `reserve(new_cap)`, translated line by line from the source.  `newId` is
the id of the fresh allocation handed out by `allocate` (`new_mem`).  Note
the source really passes `bufferStart` — the OLD buffer — to
`uninitialized_value_construct_n`, and `new_end` is therefore
`bufferStart + new_cap`, an address in the old allocation. -/
def reserve (h : Heap) (b : PGapbuffer) (newId new_cap : Nat) : Heap × PGapbuffer :=
  if new_cap > b.capacity then
    let new_mem : HPtr := ⟨newId, 0⟩
    let h1 : Heap := (newId, List.replicate new_cap indetChar) :: h
    let h2 := valueConstructN h1 b.bufferStart new_cap
    let new_end : HPtr := b.bufferStart.add new_cap
    let lhs_buf : HPtr := new_mem.add (b.gapStart.diff b.bufferStart)
    let h3 := moveN h2 b.bufferStart (b.gapStart.diff b.bufferStart) new_mem
    let rhs_size : Nat := b.bufferEnd.diff b.gapEnd
    let h4 := moveN h3 b.gapEnd rhs_size (new_end.sub rhs_size)
    (h4, ⟨new_mem, lhs_buf, (new_end.sub rhs_size), new_end⟩)
  else (h, b)

/-- Source `push_back(value)` at pointer level: write at `gapStart`, increment it,
and call `reserve(capacity() * 2)` when the gap is exhausted. -/
def push_back (h : Heap) (b : PGapbuffer) (newId : Nat) (value : Char) :
    Heap × PGapbuffer :=
  let h1 := heapWrite h b.gapStart value
  let b1 : PGapbuffer := { b with gapStart := b.gapStart.add 1 }
  if b1.gapStart = b1.gapEnd then reserve h1 b1 newId (b1.capacity * 2)
  else (h1, b1)

/-- Source `pop_back()` at pointer level. -/
def pop_back (h : Heap) (b : PGapbuffer) : Option Char × PGapbuffer :=
  if b.gapStart = b.bufferStart then (none, b)
  else (some (heapRead h (b.gapStart.sub 1)), { b with gapStart := b.gapStart.sub 1 })

/-- The move constructor, translated from the source: the destination copies
the source object's four pointers, and the member-initializer list is
followed by `allocator_type().deallocate(other.bufferStart, other.capacity())`
on the very allocation just transferred.  The moved-from object's pointers
are not changed.  Returns (heap after, destination, moved-from source). -/
def moveConstruct (h : Heap) (other : PGapbuffer) :
    Heap × PGapbuffer × PGapbuffer :=
  let dest : PGapbuffer := ⟨other.bufferStart, other.gapStart, other.gapEnd, other.bufferEnd⟩
  (heapDealloc h other.bufferStart.alloc, dest, other)

end PGapbuffer

/-- The buffer produced by `Gapbuffer()` followed by `push_back('a')`:
32 value-constructed slots with `'a'` written into slot 0, `gapStart = 1`. -/
def bA : Gapbuffer := ⟨'a' :: List.replicate 31 nulChar, 1, 32⟩

/-- Flat model of `Gapbuffer(std::string_view("ab"))`, with a concrete
stand-in for the 8 uninitialized gap slots. -/
def bAB : Gapbuffer := Gapbuffer.mkFromString ['a', 'b'] (List.replicate 8 '?')

/-- Flat model of `Gapbuffer(std::string_view("aba"))` (concrete gap junk). -/
def bABA : Gapbuffer := Gapbuffer.mkFromString ['a', 'b', 'a'] (List.replicate 8 '?')

/-- Heap after `Gapbuffer(1)`: one allocation of one value-constructed slot. -/
def gb1Heap : Heap := [(0, [nulChar])]

/-- Object state after `Gapbuffer(1)`. -/
def gb1 : PGapbuffer := ⟨⟨0, 0⟩, ⟨0, 0⟩, ⟨0, 1⟩, ⟨0, 1⟩⟩

/-- Heap after `Gapbuffer(std::string_view("ab"))`: allocation 0 holds
`'a','b'` followed by 8 uninitialized slots. -/
def gbABHeap : Heap := [(0, ['a', 'b'] ++ List.replicate 8 indetChar)]

/-- Object state after `Gapbuffer(std::string_view("ab"))`. -/
def gbAB : PGapbuffer := ⟨⟨0, 0⟩, ⟨0, 2⟩, ⟨0, 10⟩, ⟨0, 10⟩⟩

/-- C1: refuted on the code.  `advance()` on a default-constructed buffer
(right segment empty) still increments both gap pointers, leaving
`gapEnd = bufferEnd + 1`, so the layout ordering
`bufferStart ≤ gapStart ≤ gapEnd ≤ bufferEnd` fails in a reachable state
(`size() + gap_size() == capacity()` is unaffected here, the ordering is
what breaks). -/
theorem c1_advance_breaks_layout_invariant :
    Gapbuffer.capacity (Gapbuffer.advance Gapbuffer.mkDefault) <
      (Gapbuffer.advance Gapbuffer.mkDefault).gapEnd ∧
    (Gapbuffer.advance Gapbuffer.mkDefault).gapEnd = 33 ∧
    Gapbuffer.capacity (Gapbuffer.advance Gapbuffer.mkDefault) = 32 := by decide

/-- C3: refuted on the code.  `reserve(20)` on a buffer holding `"ab"`
value-constructs `new_cap` slots over the OLD buffer (the source passes
`bufferStart`, not `new_mem`, to `uninitialized_value_construct_n`), so the
relocated left segment reads back as zero bytes instead of `'a','b'`, and
the resulting `bufferStart` and `bufferEnd` lie in different allocations —
`to_str()` is not preserved. -/
theorem c3_reserve_corrupts_content :
    (PGapbuffer.reserve gbABHeap gbAB 1 20).2.bufferStart.alloc ≠
      (PGapbuffer.reserve gbABHeap gbAB 1 20).2.bufferEnd.alloc ∧
    heapRead (PGapbuffer.reserve gbABHeap gbAB 1 20).1
      (PGapbuffer.reserve gbABHeap gbAB 1 20).2.bufferStart = nulChar ∧
    heapRead (PGapbuffer.reserve gbABHeap gbAB 1 20).1
      ((PGapbuffer.reserve gbABHeap gbAB 1 20).2.bufferStart.add 1) = nulChar ∧
    nulChar ≠ 'a' ∧ nulChar ≠ 'b' := by decide

/-- C4: refuted on the code.  On a buffer whose left segment holds exactly
one element (`Gapbuffer()` then `push_back('a')`), `retreat()` changes
`to_str()` from `"a"` to `"\x00"`: the post-decrement test
`gapStart > bufferStart` skips carrying the first element over to the right
segment. -/
theorem c4_retreat_changes_content :
    Gapbuffer.push_back Gapbuffer.mkDefault 'a' = some bA ∧
    Gapbuffer.to_str bA = ['a'] ∧
    Gapbuffer.to_str (Gapbuffer.retreat bA) = [nulChar] ∧
    Gapbuffer.to_str (Gapbuffer.retreat bA) ≠ Gapbuffer.to_str bA := by decide

/-- C5: refuted on the code.  On `Gapbuffer(1)`, `push_back('a')` exhausts
the gap and triggers the defective `reserve`, which zeroes the relocated
element, so the following `pop_back()` returns `'\x00'`, not `'a'`. -/
theorem c5_push_pop_not_round_trip :
    (PGapbuffer.pop_back (PGapbuffer.push_back gb1Heap gb1 1 'a').1
        (PGapbuffer.push_back gb1Heap gb1 1 'a').2).1 = some nulChar ∧
    nulChar ≠ 'a' := by decide

/-- C6 counterexample: `erase(2)` on a buffer whose left segment holds one
element fails (the claim's "fails" part holds) but has already consumed the
element: the final state differs from the initial one (`gapStart` dropped
from 1 to 0), contradicting "fails without having consumed any element". -/
theorem c6_erase_partially_consumes :
    (Gapbuffer.erase bA 2).1 = none ∧ (Gapbuffer.erase bA 2).2 ≠ bA ∧
    (Gapbuffer.erase bA 2).2.gapStart = 0 ∧ bA.gapStart = 1 := by decide

/-- C10: `empty()` is exactly "the left segment is empty"
(`gapStart == bufferStart`), and it is not equivalent to `size() == 0`: the
reachable state `Gapbuffer(); push_back('a'); retreat()` has `empty() = true`
while `size() = 1 > 0`. -/
theorem c10_empty_tracks_left_segment :
    (∀ b : Gapbuffer, b.empty = true ↔ b.gapStart = 0) ∧
    Gapbuffer.push_back Gapbuffer.mkDefault 'a' = some bA ∧
    Gapbuffer.empty (Gapbuffer.retreat bA) = true ∧
    0 < Gapbuffer.size (Gapbuffer.retreat bA) := by
  refine ⟨fun b => ?_, by decide, by decide, by decide⟩
  simp [Gapbuffer.empty]
/-- Under the layout invariant, the length of `to_str()` is `size()`. -/
theorem to_str_length_eq_size (b : Gapbuffer) (hwf : b.WF) :
    b.to_str.length = b.size := by
  obtain ⟨h1, h2⟩ := hwf
  simp only [Gapbuffer.to_str, Gapbuffer.size, List.length_append, List.length_take,
    List.length_drop]
  omega

/-- C2: `at(i)` fails exactly when `i ≥ size()`, and otherwise yields the
`i`-th element of the logical sequence through the physical translation. -/
theorem c2_at_checked_access (b : Gapbuffer) (hwf : b.WF) (i : Nat) :
    b.at_ i = b.to_str[i]? := by
  obtain ⟨h1, h2⟩ := hwf
  have hlen : b.to_str.length = b.size := to_str_length_eq_size b ⟨h1, h2⟩
  have hsize : b.size = b.data.length - (b.gapEnd - b.gapStart) := rfl
  unfold Gapbuffer.at_
  by_cases hge : i ≥ b.size
  · rw [if_pos hge]
    exact (List.getElem?_eq_none (by omega)).symm
  · rw [if_neg hge]
    push_neg at hge
    rw [Gapbuffer.to_str]
    by_cases hlt : i < b.gapStart
    · rw [if_pos hlt]
      have hi : i < b.data.length := by omega
      have htl : i < (b.data.take b.gapStart).length := by
        simp only [List.length_take]; omega
      rw [List.getElem?_append_left htl, List.getElem?_take, if_pos hlt,
        List.getElem?_eq_getElem hi, List.getD_eq_getElem?_getD,
        List.getElem?_eq_getElem hi]
      rfl
    · rw [if_neg hlt]
      push_neg at hlt
      have hidx : b.gapEnd + (i - b.gapStart) < b.data.length := by omega
      have htl : (b.data.take b.gapStart).length ≤ i := by
        simp only [List.length_take]; omega
      rw [List.getElem?_append_right htl, List.getElem?_drop,
        List.getD_eq_getElem?_getD, List.getElem?_eq_getElem hidx]
      have : b.gapEnd + (i - (b.data.take b.gapStart).length)
           = b.gapEnd + (i - b.gapStart) := by
        simp only [List.length_take]; omega
      rw [this, List.getElem?_eq_getElem hidx]
      rfl

/-- Helper for C6: `erase(n)` with `n` exceeding the left segment's length
pops until the left segment is exhausted, then fails: the final state has
`gapStart = bufferStart` and the same slots and `gapEnd`. -/
theorem erase_past_content (b : Gapbuffer) (n : Nat) (hn : b.gapStart < n) :
    b.erase n = (none, { b with gapStart := 0 }) := by
  induction n generalizing b with
  | zero => omega
  | succ m ih =>
    by_cases h0 : b.gapStart = 0
    · have hpop : b.pop_back = (none, b) := by simp [Gapbuffer.pop_back, h0]
      cases b with
      | mk data gs ge => simp_all [Gapbuffer.erase]
    · have hpop : b.pop_back = (some (b.data.getD (b.gapStart - 1) nulChar),
          ⟨b.data, b.gapStart - 1, b.gapEnd⟩) := by
        simp [Gapbuffer.pop_back, h0]
      have hrec := ih ⟨b.data, b.gapStart - 1, b.gapEnd⟩ (by simp; omega)
      simp [Gapbuffer.erase, hpop, hrec]

/-- C6 (amended): `pop_back()` on an empty left segment fails with the
object unchanged, but `erase(count)` with `count` exceeding the left
segment's length fails only after consuming the entire left segment. -/
theorem c6_amended_failure_behaviour (b : Gapbuffer) :
    (b.gapStart = 0 → b.pop_back = (none, b)) ∧
    (∀ n, b.gapStart < n → b.erase n = (none, { b with gapStart := 0 })) :=
  ⟨fun h0 => by simp [Gapbuffer.pop_back, h0],
   fun n hn => erase_past_content b n hn⟩

/-- Witness for the amended C6 theorem at the concrete state `Gapbuffer(5)`. -/
theorem c6_amended_witness :
    Gapbuffer.pop_back (Gapbuffer.mkWithCapacity 5) = (none, Gapbuffer.mkWithCapacity 5) ∧
    Gapbuffer.erase (Gapbuffer.mkWithCapacity 5) 1 =
      (none, { Gapbuffer.mkWithCapacity 5 with gapStart := 0 }) :=
  ⟨(c6_amended_failure_behaviour (Gapbuffer.mkWithCapacity 5)).1 rfl,
   (c6_amended_failure_behaviour (Gapbuffer.mkWithCapacity 5)).2 1 (by decide)⟩

/-- C7: an iterator on the last left-segment slot (`gapStart - 1`) steps to
`gapEnd` in one increment and never to a slot inside `[gapStart, gapEnd)`;
one decrement from `gapEnd` lands back on `gapStart - 1`. -/
theorem c7_iterator_skips_gap (b : Gapbuffer) (hwf : b.WF) (h1 : 1 ≤ b.gapStart) :
    b.iterNext (b.gapStart - 1) = b.gapEnd ∧
    (∀ p : Nat, ¬ (b.gapStart ≤ b.iterNext p ∧ b.iterNext p < b.gapEnd)) ∧
    b.iterPrev b.gapEnd = b.gapStart - 1 := by
  obtain ⟨hge, _⟩ := hwf
  refine ⟨?_, ?_, ?_⟩
  · simp only [Gapbuffer.iterNext]
    split
    · rfl
    · omega
  · intro p
    simp only [Gapbuffer.iterNext]
    split
    · omega
    · omega
  · simp only [Gapbuffer.iterPrev]
    split
    · rfl
    · omega

/-- Witness for C7 at the concrete buffer built from `"ab"`. -/
theorem c7_witness :
    Gapbuffer.WF bAB ∧ 1 ≤ bAB.gapStart ∧
    (bAB.iterNext (bAB.gapStart - 1) = bAB.gapEnd ∧
     (∀ p : Nat, ¬ (bAB.gapStart ≤ bAB.iterNext p ∧ bAB.iterNext p < bAB.gapEnd)) ∧
     bAB.iterPrev bAB.gapEnd = bAB.gapStart - 1) :=
  ⟨by decide, by decide, c7_iterator_skips_gap bAB (by decide) (by decide)⟩

/-- Removing an allocation from the heap makes lookups of its id fail. -/
theorem lookup_heapDealloc_self (h : Heap) (id : Nat) :
    List.lookup id (heapDealloc h id) = none := by
  induction h with
  | nil => rfl
  | cons e t ih =>
    obtain ⟨k, v⟩ := e
    by_cases he : k = id
    · simpa [heapDealloc, List.filter_cons, he] using ih
    · have hbeq : (id == k) = false := beq_eq_false_iff_ne.mpr (Ne.symm he)
      simp only [heapDealloc, List.filter_cons] at ih ⊢
      rw [if_pos (by simp [he])]
      simp only [List.lookup, hbeq]
      exact ih

/-- C9: refuted on the code.  The move constructor copies the source
object's four pointers and then deallocates the very allocation they point
to: afterwards the destination references storage that is no longer live,
and the moved-from object still holds the same pointers (no null/empty
sentinel). -/
theorem c9_move_ctor_frees_destination_storage (h : Heap) (other : PGapbuffer) :
    (PGapbuffer.moveConstruct h other).2.1 = other ∧
    (PGapbuffer.moveConstruct h other).2.2 = other ∧
    List.lookup (PGapbuffer.moveConstruct h other).2.1.bufferStart.alloc
      (PGapbuffer.moveConstruct h other).1 = none := by
  refine ⟨rfl, rfl, ?_⟩
  simp only [PGapbuffer.moveConstruct]
  exact lookup_heapDealloc_self h other.bufferStart.alloc

/-- Each occurrence contributes one index to `occIndices`. -/
theorem occIndices_length (c : Char) (xs : List Char) :
    (occIndices c xs).length = xs.count c := by
  induction xs with
  | nil => rfl
  | cons x xs ih =>
    by_cases hx : x = c <;>
      simp [occIndices, hx, List.count_cons, ih]

/-- Entry `n` of `occIndices c xs` is the 0-based index of the `n+1`-st
occurrence of `c` in `xs`: the slot holds `c` and exactly `n` occurrences
precede it. -/
theorem occIndices_spec (c : Char) (xs : List Char) :
    ∀ (n j : Nat), (occIndices c xs)[n]? = some j →
      j < xs.length ∧ xs[j]? = some c ∧ (xs.take j).count c = n := by
  induction xs with
  | nil => intro n j h; simp [occIndices] at h
  | cons x xs ih =>
    intro n j h
    by_cases hx : x = c
    · rw [occIndices, if_pos hx] at h
      cases n with
      | zero =>
        simp only [List.getElem?_cons_zero, Option.some.injEq] at h
        subst h
        subst hx
        simp
      | succ m =>
        simp only [List.getElem?_cons_succ, List.getElem?_map] at h
        cases hh : (occIndices c xs)[m]? with
        | none => rw [hh] at h; simp at h
        | some j' =>
          rw [hh] at h
          simp only [Option.map_some', Option.some.injEq] at h
          subst h
          obtain ⟨hj1, hj2, hj3⟩ := ih m j' hh
          refine ⟨by simpa using hj1, by simpa using hj2, ?_⟩
          subst hx
          simp [List.count_cons, hj3]
    · rw [occIndices, if_neg hx] at h
      simp only [List.getElem?_map] at h
      cases hh : (occIndices c xs)[n]? with
      | none => rw [hh] at h; simp at h
      | some j' =>
        rw [hh] at h
        simp only [Option.map_some', Option.some.injEq] at h
        subst h
        obtain ⟨hj1, hj2, hj3⟩ := ih n j' hh
        refine ⟨by simpa using hj1, by simpa using hj2, ?_⟩
        have hne : (x == c) = false := beq_eq_false_iff_ne.mpr hx
        simp [List.count_cons, hne, hj3]

/-- The scanning loop of `find`: started with `tracking = t` and needing
`m + 1` further occurrences, it returns `idx` plus the position of the
`m+1`-st occurrence, or `-1` when there are fewer. -/
theorem findGo_spec (c : Char) (xs : List Char) :
    ∀ (m : Nat) (t i : Int),
      Gapbuffer.findGo c (t + ((m + 1 : Nat) : Int)) xs t i =
        (match (occIndices c xs)[m]? with
         | some j => i + (j : Int)
         | none => -1) := by
  induction xs with
  | nil =>
    intro m t i
    simp [Gapbuffer.findGo, occIndices]
  | cons x xs ih =>
    intro m t i
    rw [Gapbuffer.findGo]
    by_cases hx : x = c
    · rw [if_pos hx, occIndices, if_pos hx]
      cases m with
      | zero =>
        rw [if_pos (by push_cast; ring)]
        simp
      | succ m' =>
        rw [if_neg (by push_cast; omega)]
        have harg : t + (((m' + 1) + 1 : Nat) : Int)
            = (t + 1) + ((m' + 1 : Nat) : Int) := by push_cast; ring
        rw [harg, ih m' (t + 1) (i + 1)]
        simp only [List.getElem?_cons_succ, List.getElem?_map]
        cases hh : (occIndices c xs)[m']? with
        | none => simp
        | some j => simp; ring
    · rw [if_neg hx, occIndices, if_neg hx, ih m t (i + 1)]
      simp only [List.getElem?_map]
      cases hh : (occIndices c xs)[m]? with
      | none => simp
      | some j => simp; ring

/-- C8: `find(c, 0)` returns `0`; for `k ≥ 1`, `find(c, k)` returns the
0-based logical index of the `k`-th occurrence of `c` in the logical
sequence when at least `k` occurrences exist, and `-1` when fewer exist. -/
theorem c8_find_kth_occurrence (b : Gapbuffer) (c : Char) (k : Nat) (hk : 1 ≤ k) :
    b.find c 0 = 0 ∧
    (b.to_str.count c < k → b.find c (k : Int) = -1) ∧
    (k ≤ b.to_str.count c →
      ∃ j : Nat, b.find c (k : Int) = (j : Int) ∧ b.to_str[j]? = some c ∧
        (b.to_str.take j).count c = k - 1) := by
  have hfind : b.find c (k : Int) =
      (match (occIndices c b.to_str)[k - 1]? with
       | some j => (j : Int) | none => -1) := by
    unfold Gapbuffer.find
    rw [if_neg (by omega)]
    have harg : ((k : Nat) : Int) = 0 + (((k - 1) + 1 : Nat) : Int) := by omega
    rw [harg, findGo_spec]
    cases hh : (occIndices c b.to_str)[k - 1]? with
    | none => simp
    | some j => simp
  refine ⟨?_, ?_, ?_⟩
  · unfold Gapbuffer.find
    rw [if_pos rfl]
  · intro hlt
    rw [hfind]
    have hnone : (occIndices c b.to_str)[k - 1]? = none := by
      apply List.getElem?_eq_none
      rw [occIndices_length]
      omega
    rw [hnone]
  · intro hle
    have hlt : k - 1 < (occIndices c b.to_str).length := by
      rw [occIndices_length]; omega
    obtain ⟨j, hj⟩ : ∃ j, (occIndices c b.to_str)[k - 1]? = some j :=
      ⟨_, List.getElem?_eq_getElem hlt⟩
    obtain ⟨h1, h2, h3⟩ := occIndices_spec c b.to_str (k - 1) j hj
    refine ⟨j, ?_, h2, h3⟩
    rw [hfind, hj]

/-- Witness for C8 at the buffer built from `"aba"`, `c = 'a'`, `k = 2`. -/
theorem c8_witness :
    (1 : Nat) ≤ 2 ∧
    (Gapbuffer.find bABA 'a' 0 = 0 ∧
     ((Gapbuffer.to_str bABA).count 'a' < 2 →
        Gapbuffer.find bABA 'a' ((2 : Nat) : Int) = -1) ∧
     (2 ≤ (Gapbuffer.to_str bABA).count 'a' →
       ∃ j : Nat, Gapbuffer.find bABA 'a' ((2 : Nat) : Int) = (j : Int) ∧
         (Gapbuffer.to_str bABA)[j]? = some 'a' ∧
         ((Gapbuffer.to_str bABA).take j).count 'a' = 2 - 1)) :=
  ⟨by decide, c8_find_kth_occurrence bABA 'a' 2 (by decide)⟩

/-- Witness for C2 at the buffer built from `"ab"`, index 1. -/
theorem c2_witness :
    Gapbuffer.WF bAB ∧ Gapbuffer.at_ bAB 1 = (Gapbuffer.to_str bAB)[1]? :=
  ⟨by decide, c2_at_checked_access bAB (by decide) 1⟩
